import Mathlib

/-!
Shallow Lean embedding of the app-sticky-memo repository (a Python/Flet
Windows sticky-note utility).  Each Python structure relevant to the frozen
claims is translated to an executable Lean definition:

  * `dget` / `dset` / `dupdate` model Python `dict` lookup, item assignment
    and `dict.update` over insertion-ordered association lists;
  * `MemoManager.*` models `src/src/core/memo_manager.py` (sanitization,
    exe-name → memo-name mapping, memo file path composition), with the
    filesystem effects of `save_mapping` made explicit in a state record;
  * `ForegroundMonitor.*` models `src/src/core/foreground_monitor.py`
    (the module-level memo-path helper and the `_monitor_loop` debounce);
  * `SettingsManager.*` models `src/src/core/settings_manager.py`
    (defaults, the merge in `load_settings`, including the aliasing that the
    shallow `dict.copy()` induces between the merged result and the stored
    defaults);
  * `AppMain.*` models the window-event handlers of `src/app.py`;
  * `MemoEditor.*` models `src/src/components/memo_editor.py` (dirty flag,
    save/no-op/failure behavior) over an explicit file-system record;
  * `I18n.*` models `src/src/locales/i18n.py` (dotted-key walk over a nested
    string table and the `str.format`-style named substitution, with Python's
    caught `KeyError`/`TypeError` versus uncaught errors made explicit).

Machine-independent details (logging, the Flet widget tree, threads and
timers) are dropped; every state mutation and file write that a claim talks
about is carried explicitly in the state records.
-/

namespace StickyMemo

/-- Python `dict` lookup `d[k]`/`k in d` over an insertion-ordered
association list. -/
def dget {α : Type} (k : String) : List (String × α) → Option α
  | [] => none
  | (k', v) :: rest => if k' = k then some v else dget k rest

/-- Python `dict` item assignment `d[k] = v`: replaces the value in place if
the key is present, otherwise appends the new pair at the end (insertion
order). -/
def dset {α : Type} (k : String) (v : α) : List (String × α) → List (String × α)
  | [] => [(k, v)]
  | (k', v') :: rest => if k' = k then (k, v) :: rest else (k', v') :: dset k v rest

/-- Python `base.update(other)`: assign every pair of `other` into `base`, in
`other`'s iteration order. -/
def dupdate {α : Type} (base other : List (String × α)) : List (String × α) :=
  other.foldl (fun b kv => dset kv.1 kv.2 b) base

/-! ### Filename sanitization (`memo_manager.py` and `foreground_monitor.py`)

Both files build a safe file stem with the same three steps:
`"".join(c for c in name if c.isalnum() or c in (" ", "-", "_"))`, then
`.rstrip()`, then `.replace(" ", "_")`.  `MemoManager._sanitize_filename`
additionally falls back to `"unknown_app"` when the result is empty; the
module-level helper in `foreground_monitor.py` (and in `app.py`) has no
fallback.  Python's `str.isalnum` is Unicode-aware; the claims only involve
ASCII input, so alphanumeric is modelled by `Char.isAlphanum`. -/

/-- The keep-predicate of the sanitizing comprehension:
`c.isalnum() or c in (" ", "-", "_")`. -/
def keepChar (c : Char) : Bool :=
  c.isAlphanum || c == ' ' || c == '-' || c == '_'

/-- The whitespace set removed by Python's `str.rstrip()` (ASCII part). -/
def pyIsSpace (c : Char) : Bool :=
  c == ' ' || c == '\t' || c == '\n' || c == '\r' || c == '\x0b' || c == '\x0c'

/-- `str.rstrip()` on a character list: drop trailing whitespace. -/
def rstripChars (l : List Char) : List Char :=
  (l.reverse.dropWhile pyIsSpace).reverse

/-- `.replace(" ", "_")` on a character list. -/
def underscoreSpaces (l : List Char) : List Char :=
  l.map (fun c => if c = ' ' then '_' else c)

/-- The common filter → rstrip → replace pipeline on a character list. -/
def sanitizeChars (l : List Char) : List Char :=
  underscoreSpaces (rstripChars (l.filter keepChar))

namespace MemoManager

/-- `MemoManager._sanitize_filename`: the pipeline plus the
`"unknown_app"` fallback for an empty result. -/
def sanitize_filename (filename : String) : String :=
  let safe := String.mk (sanitizeChars filename.data)
  if safe = "" then "unknown_app" else safe

end MemoManager

/-! ### Memo Store (`src/src/core/memo_manager.py`)

`MemoManager` holds `data_dir`, the in-memory `mapping` dict, and persists
the mapping to `mapping.yaml` in `save_mapping`.  The state record carries
the mapping, the on-disk mapping document (`none` while no mapping file has
been written by this store), and a counter of mapping-file writes, so that
"touches the filesystem" is an observable part of the model. -/

structure MemoSt where
  data_dir : String
  mapping : List (String × String)
  diskMapping : Option (List (String × String))
  mappingWrites : Nat
  deriving DecidableEq

namespace MemoManager

/-- `MemoManager.save_mapping`: full rewrite of `mapping.yaml` from the
in-memory mapping (version tag and description are constant strings and are
not carried in the model). -/
def save_mapping (st : MemoSt) : MemoSt :=
  { st with diskMapping := some st.mapping, mappingWrites := st.mappingWrites + 1 }

/-- ASCII case folding, modelling `str.lower()` on the characters of an
executable name. -/
def lowerChar (c : Char) : Char :=
  if 'A' ≤ c ∧ c ≤ 'Z' then Char.ofNat (c.toNat + 32) else c

/-- `filename.lower().endswith(".exe")` on a character list. -/
def endsWithDotExe (l : List Char) : Bool :=
  match (l.map lowerChar).reverse with
  | 'e' :: 'x' :: 'e' :: '.' :: _ => true
  | _ => false

/-- `MemoManager._remove_extension`: strip a trailing `.exe`
case-insensitively (`filename[:-4]`). -/
def remove_extension (filename : String) : String :=
  if endsWithDotExe filename.data then
    String.mk (filename.data.take (filename.data.length - 4))
  else filename

/-- `MemoManager.get_memo_name`: return the mapped memo name if present;
otherwise derive it by stripping the extension, insert the pair into the
mapping, persist the full mapping, and return the derived name. -/
def get_memo_name (st : MemoSt) (exe_name : String) : String × MemoSt :=
  match dget exe_name st.mapping with
  | some memo_name => (memo_name, st)
  | none =>
    let base_name := remove_extension exe_name
    let st' := { st with mapping := dset exe_name base_name st.mapping }
    (base_name, save_mapping st')

/-- `MemoManager.get_memo_file_path`: sanitized memo name plus `.md` under
the data directory (path composition only; any filesystem effect comes from
the embedded `get_memo_name` call). -/
def get_memo_file_path (st : MemoSt) (exe_name : String) : String × MemoSt :=
  let r := get_memo_name st exe_name
  (r.2.data_dir ++ "/" ++ sanitize_filename r.1 ++ ".md", r.2)

end MemoManager

/-! ### Foreground Window Watcher (`src/src/core/foreground_monitor.py`)

The OS-level reading of one polling iteration is an `Option String`:
`some exe_name` when a foreign application owns the foreground window, and
`none` when there is no window, the lookup failed, or the utility's own
process is focused (`get_foreground_app` returns `None` in all those
cases).  `monStep` is the branch structure of one `_monitor_loop` iteration
with the shutdown flag unset (the claims' setting): its second component is
the argument passed to `on_app_change_callback`, if the callback fires
(`_handle_app_change(app_name)` passes the name; `_handle_app_focus_self`
passes `None`). -/

namespace ForegroundMonitor

/-- The module-level `get_memo_file_path` of `foreground_monitor.py`:
the same filter → rstrip → replace pipeline, but with no empty-name
fallback, joined as `<data_dir>/<stem>.md`. -/
def get_memo_file_path (app_name data_dir : String) : String :=
  data_dir ++ "/" ++ String.mk (sanitizeChars app_name.data) ++ ".md"

/-- One `_monitor_loop` iteration: returns the new `last_app` and the
callback argument when the app-changed callback is invoked. -/
def monStep (last reading : Option String) :
    Option String × Option (Option String) :=
  match reading with
  | some a =>
    if a ≠ "" ∧ last ≠ some a then (some a, some (some a)) else (last, none)
  | none =>
    if last ≠ none then (none, some none) else (last, none)

/-- Run `_monitor_loop` over a list of OS-level readings, collecting the
app-changed callback invocations in order. -/
def monitorCallbacks (last : Option String) :
    List (Option String) → List (Option String)
  | [] => []
  | r :: rest =>
    match monStep last r with
    | (l', some c) => c :: monitorCallbacks l' rest
    | (l', none) => monitorCallbacks l' rest

end ForegroundMonitor

/-! ### Settings Store (`src/src/core/settings_manager.py`)

The JSON settings document is modelled by `JVal`; a JSON object is an
insertion-ordered association list.  `load_settings` builds
`merged_settings = self.default_settings.copy()` — a SHALLOW copy, so the
nested `window` value of the copy is the very same dict object as the one
inside `self.default_settings`.  The merge loop therefore has two
observable effects, both modelled by `load_settings_merge`:

  * its first component is the merged document the method returns;
  * its second component is the state of `self.default_settings` after the
    call: `merged_settings[key].update(value)` on the dict/dict branch
    mutates the shared nested dict in place (so the defaults change too),
    while the plain `merged_settings[key] = value` branch only rebinds the
    key in the copy (defaults unchanged).
-/

inductive JVal where
  | null
  | bool (b : Bool)
  | num (n : Int)
  | str (s : String)
  | obj (fields : List (String × JVal))

namespace SettingsManager

/-- The `default_settings` dict built in `SettingsManager.__init__`;
`home` stands for `Path.home()`. -/
def default_settings (home : String) : List (String × JVal) :=
  [("data_save_dir", .str (home ++ "/Documents/StickyMemos")),
   ("window", .obj [("width", .num 400), ("height", .num 300),
                    ("left", .null), ("top", .null),
                    ("always_on_top", .bool false)])]

/-- One iteration of the merge loop of `load_settings` over a loaded pair
`(key, value)`: skipped when `key` is not in the merged dict; on the
dict/dict branch the in-place `update` also rewrites the aliased entry of
the stored defaults; otherwise only the merged copy is rebound. -/
def mergeStep (md : List (String × JVal) × List (String × JVal))
    (kv : String × JVal) : List (String × JVal) × List (String × JVal) :=
  match dget kv.1 md.1 with
  | none => md
  | some mv =>
    match kv.2, mv with
    | JVal.obj o, JVal.obj m =>
      let m' := JVal.obj (dupdate m o)
      (dset kv.1 m' md.1, dset kv.1 m' md.2)
    | _, _ => (dset kv.1 kv.2 md.1, md.2)

/-- The whole merge loop of `load_settings`, starting from the shallow copy
of the defaults: returns (merged result, defaults after the call). -/
def load_settings_merge (defaults loaded : List (String × JVal)) :
    List (String × JVal) × List (String × JVal) :=
  loaded.foldl mergeStep (defaults, defaults)

/-- The in-memory state of a `SettingsManager`. -/
structure SettingsSt where
  default_settings : List (String × JVal)
  settings : List (String × JVal)

/-- `SettingsManager.__init__`: build the defaults, then `load_settings`;
`disk` is the parsed settings file (`none` for a missing or unparsable
file, in which case a copy of the defaults is returned). -/
def init (home : String) (disk : Option (List (String × JVal))) : SettingsSt :=
  let d := default_settings home
  match disk with
  | none => ⟨d, d⟩
  | some loaded =>
    let r := load_settings_merge d loaded
    ⟨r.2, r.1⟩

end SettingsManager

/-! ### Window-event handling (`src/app.py`)

`main` wires `page.window.on_event = on_window_event`; the handler receives
`close` / `moved` / `resized` (other event strings fall through).  On
`close` it calls `set_shutdown()` and then `save_window_settings()`;
`save_window_settings` itself starts with `if is_shutting_down(): return`,
so the state model records which writes of `settings.json` actually
happen.  The geometry is read from the live window (`page.window.*`),
modelled as the `win` argument. -/

structure WinGeom where
  width : Int
  height : Int
  left : Option Int
  top : Option Int
  deriving DecidableEq

inductive WinEvent where
  | close
  | moved
  | resized
  | other
  deriving DecidableEq

/-- The orchestrator state relevant to window events: the shutdown flag,
the in-memory `settings["window"]` geometry, and the list of
`settings.json` writes performed by `save_settings` (most recent last). -/
structure AppSt where
  shutdown : Bool
  winSettings : WinGeom
  saves : List WinGeom
  deriving DecidableEq

namespace AppMain

/-- `save_window_settings`: skip when the shutdown flag is set; otherwise
copy the live geometry into `settings["window"]` and write the settings
file synchronously. -/
def save_window_settings (win : WinGeom) (s : AppSt) : AppSt :=
  if s.shutdown then s
  else { s with winSettings := win, saves := s.saves ++ [win] }

/-- `on_window_event`: on `close`, set the shutdown flag, then call
`save_window_settings`; on `moved`/`resized` while not shutting down, save
immediately; otherwise do nothing. -/
def on_window_event (e : WinEvent) (win : WinGeom) (s : AppSt) : AppSt :=
  match e with
  | .close => save_window_settings win { s with shutdown := true }
  | .moved | .resized => if ¬ s.shutdown then save_window_settings win s else s
  | .other => s

end AppMain

/-! ### Memo Editor (`src/src/components/memo_editor.py`)

The editor state keeps the fields the claims observe: the bound file path
(`current_file_path`), the dirty flag (`is_dirty`, the value returned by
`has_unsaved_changes`), the text buffer (`text_area.value`), and the save
status line's visibility and alert-color flag.  The filesystem is a map
from path to content plus the set of paths whose writes (or reads) raise,
standing for the `except` branches.  Localized strings (the new-file
template and the read-error message) are passed in as parameters. -/

structure FileSys where
  files : List (String × String)
  failWrites : List String
  failReads : List String
  deriving DecidableEq

structure EditorSt where
  current_file_path : Option String
  is_dirty : Bool
  buffer : String
  status_visible : Bool
  status_error : Bool
  deriving DecidableEq

namespace MemoEditor

/-- `MemoEditor.__init__`: no bound file, clean, empty buffer, status
hidden. -/
def initEditor : EditorSt :=
  { current_file_path := none, is_dirty := false, buffer := "",
    status_visible := false, status_error := false }

/-- `MemoEditor.load_memo`: bind the path; read the file if it exists,
otherwise show the localized template; clear the dirty flag.  A read
failure replaces the buffer with the localized error message and still
clears the dirty flag. -/
def load_memo (s : EditorSt) (fs : FileSys)
    (file_path template errText : String) : EditorSt :=
  let s1 := { s with current_file_path := some file_path }
  match dget file_path fs.files with
  | some content =>
    if file_path ∈ fs.failReads then
      { s1 with buffer := errText, is_dirty := false }
    else
      { s1 with buffer := content, is_dirty := false, status_visible := false }
  | none =>
    { s1 with buffer := template, is_dirty := false, status_visible := false }

/-- `MemoEditor._on_text_change`: the text field holds the new text; mark
dirty and hide any stale status line. -/
def on_text_change (s : EditorSt) (newText : String) : EditorSt :=
  { s with buffer := newText, is_dirty := true, status_visible := false }

/-- `MemoEditor.save_memo`: return `True` without writing when no file is
bound or nothing is unsaved; otherwise overwrite the bound file with the
buffer — on success clear the dirty flag and show the "saved" status, on a
write failure show the alert-colored error status, keep the dirty flag and
return `False`. -/
def save_memo (s : EditorSt) (fs : FileSys) : Bool × EditorSt × FileSys :=
  match s.current_file_path with
  | none => (true, s, fs)
  | some p =>
    if s.is_dirty = false then (true, s, fs)
    else if p ∈ fs.failWrites then
      (false, { s with status_visible := true, status_error := true }, fs)
    else
      (true, { s with is_dirty := false, status_visible := true },
       { fs with files := dset p s.buffer fs.files })

/-- `MemoEditor.has_unsaved_changes`. -/
def has_unsaved_changes (s : EditorSt) : Bool := s.is_dirty

end MemoEditor

/-! ### Internationalization Manager (`src/src/locales/i18n.py`)

The loaded YAML string table is a nested map with string leaves (`YVal`).
`I18nManager.t` splits the key on `.`, walks the nested dicts, and wraps
the walk in `except (KeyError, TypeError)`: a missing segment raises
`KeyError`, subscripting a string leaf raises `TypeError`, and both are
caught, returning the key.  If the walk succeeds and keyword arguments were
passed and the value is a string, `value.format(**kwargs)` runs: a
placeholder name absent from the arguments raises `KeyError` (caught →
returns the key), while a malformed format string raises `ValueError`,
which the `except` clause does NOT catch.  `TRes.raised` marks that
uncaught case; every caught path is `TRes.ret`.  `pyFormat` models the
`\x7bname\x7d` named-placeholder subset of `str.format` used by the locale
files (including the doubled-brace escapes). -/

inductive YVal where
  | str (s : String)
  | map (entries : List (String × YVal))

namespace I18n

def squoteChar : Char := Char.ofNat 39
def lbraceChar : Char := Char.ofNat 123
def rbraceChar : Char := Char.ofNat 125

mutual

/-- Python `repr` of a table value (string leaves quoted, dicts braced) —
the shape `str(value)` produces for a non-leaf value. -/
def reprVal : YVal → String
  | .str s => String.singleton squoteChar ++ s ++ String.singleton squoteChar
  | .map m =>
    String.singleton lbraceChar ++ reprEntries m ++ String.singleton rbraceChar

def reprEntries : List (String × YVal) → String
  | [] => ""
  | (k, v) :: rest =>
    String.singleton squoteChar ++ k ++ String.singleton squoteChar ++ ": "
      ++ reprVal v ++ (if rest.isEmpty then "" else ", ") ++ reprEntries rest

end

/-- Python `str(value)`: a string is itself, anything else its `repr`. -/
def pyStr : YVal → String
  | .str s => s
  | .map m => reprVal (.map m)

/-- `key.split(".")` (Python semantics: `"".split(".") == [""]`). -/
def splitDotsGo : List Char → List Char → List String
  | [], acc => [String.mk acc.reverse]
  | c :: rest, acc =>
    if c = '.' then String.mk acc.reverse :: splitDotsGo rest []
    else splitDotsGo rest (c :: acc)

def splitDots (s : String) : List String :=
  splitDotsGo s.data []

/-- The dotted-key walk `for part in key.split("."): value = value[part]`;
`none` marks a raised (and caught) `KeyError` / `TypeError`. -/
def walk : YVal → List String → Option YVal
  | v, [] => some v
  | .map m, p :: rest =>
    match dget p m with
    | some v => walk v rest
    | none => none
  | .str _, _ :: _ => none

/-- Outcome of `value.format(**kwargs)`. -/
inductive FmtOut where
  | ok (s : String)
  | keyError
  | uncaught
  deriving DecidableEq

/-- Character-level scan of the format string: outside a field, a doubled
brace is a literal brace and a lone closing brace is an error; inside a
field, the collected name (held reversed) is resolved against the keyword
arguments at the closing brace — `KeyError` when absent. -/
def fmtGo (args : List (String × String)) :
    List Char → Option (List Char) → List Char → FmtOut
  | [], none, acc => .ok (String.mk acc.reverse)
  | [], some _, _ => .uncaught
  | c :: rest, none, acc =>
    if c = lbraceChar then fmtGo args rest (some []) acc
    else if c = rbraceChar then
      match rest with
      | d :: rest2 =>
        if d = rbraceChar then fmtGo args rest2 none (rbraceChar :: acc)
        else .uncaught
      | [] => .uncaught
    else fmtGo args rest none (c :: acc)
  | c :: rest, some nm, acc =>
    if c = lbraceChar then
      if nm.isEmpty then fmtGo args rest none (lbraceChar :: acc)
      else .uncaught
    else if c = rbraceChar then
      if nm.isEmpty then .uncaught
      else
        match dget (String.mk nm.reverse) args with
        | some v => fmtGo args rest none (v.data.reverse ++ acc)
        | none => .keyError
    else fmtGo args rest (some (c :: nm)) acc

def pyFormat (s : String) (args : List (String × String)) : FmtOut :=
  fmtGo args s.data none []

/-- Result of `I18nManager.t`: a returned string, or an uncaught
exception. -/
inductive TRes where
  | ret (s : String)
  | raised
  deriving DecidableEq

/-- `I18nManager.t(key, **kwargs)` over the loaded string table. -/
def t (strings : YVal) (key : String) (kwargs : List (String × String)) : TRes :=
  match walk strings (splitDots key) with
  | none => .ret key
  | some v =>
    match v with
    | .str s =>
      if kwargs.isEmpty then .ret s
      else
        match pyFormat s kwargs with
        | .ok r => .ret r
        | .keyError => .ret key
        | .uncaught => .raised
    | .map m => .ret (pyStr (.map m))

end I18n

/-! Basic facts about the sanitizing pipeline, used for idempotence. -/

theorem keepChar_of_pyIsSpace {c : Char} (hk : keepChar c = true)
    (hs : pyIsSpace c = true) : c = ' ' := by
  simp only [pyIsSpace, Bool.or_eq_true, beq_iff_eq] at hs
  rcases hs with ((((h | h) | h) | h) | h) | h
  · exact h
  all_goals (subst h; exact absurd hk (by decide))

theorem mem_rstripChars {c : Char} {l : List Char}
    (h : c ∈ rstripChars l) : c ∈ l := by
  unfold rstripChars at h
  have h1 : c ∈ l.reverse.dropWhile pyIsSpace := List.mem_reverse.mp h
  exact List.mem_reverse.mp ((List.dropWhile_sublist pyIsSpace).mem h1)

theorem sanitizeChars_mem {c : Char} {l : List Char}
    (h : c ∈ sanitizeChars l) : keepChar c = true ∧ c ≠ ' ' := by
  unfold sanitizeChars underscoreSpaces at h
  rcases List.mem_map.mp h with ⟨d, hd, hdc⟩
  have hdk : keepChar d = true :=
    List.of_mem_filter (mem_rstripChars hd)
  by_cases hsp : d = ' '
  · subst hsp
    simp only [if_pos rfl] at hdc
    subst hdc
    refine ⟨by decide, by decide⟩
  · simp only [if_neg hsp] at hdc
    subst hdc
    exact ⟨hdk, hsp⟩

theorem rstripChars_eq_self {l : List Char}
    (h : ∀ c ∈ l, pyIsSpace c = false) : rstripChars l = l := by
  unfold rstripChars
  have hd : l.reverse.dropWhile pyIsSpace = l.reverse := by
    cases hr : l.reverse with
    | nil => rfl
    | cons a t =>
      have ha : a ∈ l := by
        refine List.mem_reverse.mp ?_
        rw [hr]
        exact List.mem_cons_self a t
      simp [List.dropWhile_cons, h a ha]
  rw [hd, List.reverse_reverse]

theorem sanitizeChars_eq_self {l : List Char}
    (h : ∀ c ∈ l, keepChar c = true ∧ c ≠ ' ') : sanitizeChars l = l := by
  unfold sanitizeChars
  have hf : l.filter keepChar = l :=
    List.filter_eq_self.mpr (fun c hc => (h c hc).1)
  rw [hf]
  have hr : rstripChars l = l := by
    refine rstripChars_eq_self (fun c hc => ?_)
    rcases h c hc with ⟨hk, hs⟩
    by_cases hps : pyIsSpace c = true
    · exact absurd (keepChar_of_pyIsSpace hk hps) hs
    · simpa using hps
  rw [hr]
  unfold underscoreSpaces
  have : ∀ m : List Char, (∀ c ∈ m, c ≠ ' ') →
      m.map (fun c => if c = ' ' then '_' else c) = m := by
    intro m hm
    induction m with
    | nil => rfl
    | cons a t ih =>
      simp only [List.map_cons]
      rw [if_neg (hm a (List.mem_cons_self a t)),
        ih (fun c hc => hm c (List.mem_cons_of_mem a hc))]
  exact this l (fun c hc => (h c hc).2)

/-- Sanitizing is idempotent: one pass produces only kept, non-space
characters (or the literal fallback), and a second pass leaves those
untouched. -/
theorem sanitize_filename_idem (s : String) :
    MemoManager.sanitize_filename (MemoManager.sanitize_filename s)
      = MemoManager.sanitize_filename s := by
  unfold MemoManager.sanitize_filename
  by_cases h : String.mk (sanitizeChars s.data) = ""
  · rw [if_pos h]
    decide
  · rw [if_neg h]
    have hchars : ∀ c ∈ (String.mk (sanitizeChars s.data)).data,
        keepChar c = true ∧ c ≠ ' ' := by
      intro c hc
      exact sanitizeChars_mem hc
    have hfix : sanitizeChars (String.mk (sanitizeChars s.data)).data
        = sanitizeChars s.data := sanitizeChars_eq_self hchars
    rw [hfix, if_neg h]

/-! Association-list facts for the mapping. -/

theorem dget_none_forall {α : Type} {k : String} {l : List (String × α)}
    (h : dget k l = none) : ∀ kv ∈ l, kv.1 ≠ k := by
  induction l with
  | nil => intro kv hkv; cases hkv
  | cons a t ih =>
    intro kv hkv
    unfold dget at h
    by_cases ha : a.1 = k
    · rw [if_pos ha] at h
      cases h
    · rw [if_neg ha] at h
      rcases List.mem_cons.mp hkv with he | ht
      · subst he; exact ha
      · exact ih h kv ht

theorem dset_append_of_none {α : Type} {k : String} {l : List (String × α)}
    (v : α) (h : dget k l = none) : dset k v l = l ++ [(k, v)] := by
  induction l with
  | nil => rfl
  | cons a t ih =>
    unfold dget at h
    by_cases ha : a.1 = k
    · rw [if_pos ha] at h; cases h
    · rw [if_neg ha] at h
      show dset k v (a :: t) = a :: t ++ [(k, v)]
      unfold dset
      rw [if_neg ha, ih h]
      simp

theorem dget_dset_self {α : Type} (k : String) (v : α) (l : List (String × α)) :
    dget k (dset k v l) = some v := by
  induction l with
  | nil => simp [dset, dget]
  | cons a t ih =>
    unfold dset
    by_cases ha : a.1 = k
    · rw [if_pos ha]; unfold dget; rw [if_pos rfl]
    · rw [if_neg ha]; unfold dget; rw [if_neg ha]; exact ih

/-- C6: filename sanitization drops every character outside
alphanumeric/space/hyphen/underscore, trims trailing whitespace, replaces
spaces with underscores, and falls back to the literal `unknown_app` on an
empty result; `My App!! 2` ↦ `My_App_2`, `!!!` ↦ `unknown_app`, and the
operation is idempotent on every input. -/
theorem C6_sanitize_spec :
    MemoManager.sanitize_filename "My App!! 2" = "My_App_2" ∧
    MemoManager.sanitize_filename "!!!" = "unknown_app" ∧
    ∀ s : String,
      MemoManager.sanitize_filename (MemoManager.sanitize_filename s)
        = MemoManager.sanitize_filename s := by
  refine ⟨by decide, by decide, sanitize_filename_idem⟩

/-- C4 counterexample: composing the memo file path for the unmapped
executable `foo.exe` over an empty store is not state-preserving — it
inserts a mapping entry and performs a mapping-file write, refuting the
claim that for every executable name the operation leaves the store's state
and the on-disk mapping file unchanged. -/
theorem C4_counterexample :
    (MemoManager.get_memo_file_path ⟨"data", [], none, 0⟩ "foo.exe").2
        ≠ (⟨"data", [], none, 0⟩ : MemoSt) ∧
    (MemoManager.get_memo_file_path ⟨"data", [], none, 0⟩ "foo.exe").2
        = ⟨"data", [("foo.exe", "foo")], some [("foo.exe", "foo")], 1⟩ := by
  constructor
  · decide
  · rfl

/-- Shared fact: for a mapped executable, `get_memo_file_path` is pure. -/
theorem memo_path_of_mapped (st : MemoSt) (exe_name memo_name : String)
    (h : dget exe_name st.mapping = some memo_name) :
    MemoManager.get_memo_file_path st exe_name
      = (st.data_dir ++ "/" ++ MemoManager.sanitize_filename memo_name ++ ".md", st) := by
  unfold MemoManager.get_memo_file_path MemoManager.get_memo_name
  rw [h]

/-- C4 (amended): when the executable is already present in the mapping,
composing the memo file path is pure — it returns the sanitized memo name
with the `.md` suffix under the data directory and leaves the store's state
(in-memory mapping and on-disk mapping file) unchanged; for an unmapped
executable the embedded name-resolution inserts a mapping entry and writes
the mapping file as a side effect. -/
theorem C4_path_pure_when_mapped (st : MemoSt) (exe_name memo_name : String)
    (h : dget exe_name st.mapping = some memo_name) :
    MemoManager.get_memo_file_path st exe_name
      = (st.data_dir ++ "/" ++ MemoManager.sanitize_filename memo_name ++ ".md", st) :=
  memo_path_of_mapped st exe_name memo_name h

/-- Witness for C4: a concrete mapped store where path composition changes
nothing. -/
theorem C4_path_pure_when_mapped_witness :
    dget "foo.exe" ([("foo.exe", "foo")] : List (String × String)) = some "foo" ∧
    MemoManager.get_memo_file_path ⟨"data", [("foo.exe", "foo")], none, 0⟩ "foo.exe"
      = ("data/foo.md", ⟨"data", [("foo.exe", "foo")], none, 0⟩) := by
  refine ⟨by decide, ?_⟩
  rw [C4_path_pure_when_mapped ⟨"data", [("foo.exe", "foo")], none, 0⟩
    "foo.exe" "foo" (by decide)]
  decide

/-- C5: for an executable not in the mapping, the first name resolution
derives the memo name by stripping a trailing `.exe` case-insensitively,
appends exactly one new pair to the mapping, persists the full mapping to
disk, and a second call for the same executable returns the same name with
no state change and no duplicate entry. -/
theorem C5_get_memo_name_first_and_stable (st : MemoSt) (exe_name : String)
    (h : dget exe_name st.mapping = none) :
    (MemoManager.get_memo_name st exe_name).1
        = MemoManager.remove_extension exe_name ∧
    (MemoManager.get_memo_name st exe_name).2.mapping
        = st.mapping ++ [(exe_name, MemoManager.remove_extension exe_name)] ∧
    (MemoManager.get_memo_name st exe_name).2.diskMapping
        = some ((MemoManager.get_memo_name st exe_name).2.mapping) ∧
    ((MemoManager.get_memo_name st exe_name).2.mapping.countP
        (fun kv => kv.1 == exe_name)) =
      st.mapping.countP (fun kv => kv.1 == exe_name) + 1 ∧
    st.mapping.countP (fun kv => kv.1 == exe_name) = 0 ∧
    MemoManager.get_memo_name (MemoManager.get_memo_name st exe_name).2 exe_name
        = ((MemoManager.get_memo_name st exe_name).1,
           (MemoManager.get_memo_name st exe_name).2) := by
  have hzero : st.mapping.countP (fun kv => kv.1 == exe_name) = 0 := by
    refine List.countP_eq_zero.mpr (fun kv hkv => ?_)
    simp [dget_none_forall h kv hkv]
  have hset := dset_append_of_none (MemoManager.remove_extension exe_name) h
  have hname : MemoManager.get_memo_name st exe_name
      = (MemoManager.remove_extension exe_name,
         { st with
            mapping := st.mapping
              ++ [(exe_name, MemoManager.remove_extension exe_name)],
            diskMapping := some (st.mapping
              ++ [(exe_name, MemoManager.remove_extension exe_name)]),
            mappingWrites := st.mappingWrites + 1 }) := by
    unfold MemoManager.get_memo_name
    rw [h]
    simp only [MemoManager.save_mapping, hset]
  have hg : dget exe_name
      (st.mapping ++ [(exe_name, MemoManager.remove_extension exe_name)])
      = some (MemoManager.remove_extension exe_name) := by
    rw [← hset]
    exact dget_dset_self _ _ _
  rw [hname]
  refine ⟨rfl, rfl, rfl, ?_, hzero, ?_⟩
  · simp only [List.countP_append, hzero]
    simp [List.countP_cons]
  · unfold MemoManager.get_memo_name
    rw [hg]

/-- Witness for C5: resolving the unmapped executable `foo.exe` in a fresh
store yields `foo`, a one-entry persisted mapping, and a stable second
call. -/
theorem C5_get_memo_name_witness :
    dget "foo.exe" (([] : List (String × String))) = none ∧
    (MemoManager.get_memo_name ⟨"data", [], none, 0⟩ "foo.exe").1 = "foo" ∧
    (MemoManager.get_memo_name ⟨"data", [], none, 0⟩ "foo.exe").2.mapping
      = [("foo.exe", "foo")] ∧
    (MemoManager.get_memo_name ⟨"data", [], none, 0⟩ "foo.exe").2.diskMapping
      = some [("foo.exe", "foo")] ∧
    MemoManager.get_memo_name
        (MemoManager.get_memo_name ⟨"data", [], none, 0⟩ "foo.exe").2 "foo.exe"
      = ("foo", (MemoManager.get_memo_name ⟨"data", [], none, 0⟩ "foo.exe").2) := by
  have h := C5_get_memo_name_first_and_stable ⟨"data", [], none, 0⟩ "foo.exe" rfl
  refine ⟨rfl, by decide, by decide, by decide, ?_⟩
  have h6 := h.2.2.2.2.2
  rw [h6]
  decide

/-- C2 counterexample: on the reading sequence `[A, A, A, B, B, none, none,
A]` the monitor loop invokes the app-changed callback four times — with `A`,
`B`, the `None` self-focus signal, and `A` — not three: observing `none`
while tracking an app runs `_handle_app_focus_self`, which does invoke the
callback (with `None`). -/
theorem C2_counterexample :
    ForegroundMonitor.monitorCallbacks none
        [some "a.exe", some "a.exe", some "a.exe", some "b.exe", some "b.exe",
         none, none, some "a.exe"]
      = [some "a.exe", some "b.exe", none, some "a.exe"] ∧
    (ForegroundMonitor.monitorCallbacks none
        [some "a.exe", some "a.exe", some "a.exe", some "b.exe", some "b.exe",
         none, none, some "a.exe"]).length ≠ 3 := by
  refine ⟨rfl, by decide⟩

/-- C2 (amended): for the monitor loop starting with no last-seen app and
distinct non-empty executables `A`, `B`, the reading sequence `[A, A, A, B,
B, none, none, A]` invokes the app-changed callback exactly four times, with
`A`, `B`, the `None` self-focus signal, and `A`; repeated identical readings
never re-fire. -/
theorem C2_monitor_debounce (A B : String) (hA : A ≠ "") (hB : B ≠ "")
    (hAB : A ≠ B) :
    ForegroundMonitor.monitorCallbacks none
        [some A, some A, some A, some B, some B, none, none, some A]
      = [some A, some B, none, some A] := by
  have hBA : ¬ (some A = some B) := by simp [hAB]
  simp [ForegroundMonitor.monitorCallbacks, ForegroundMonitor.monStep,
    hA, hB, hAB, hBA]

/-- Witness for C2 at `A = "a.exe"`, `B = "b.exe"`. -/
theorem C2_monitor_debounce_witness :
    ForegroundMonitor.monitorCallbacks none
        [some "a.exe", some "a.exe", some "a.exe", some "b.exe", some "b.exe",
         none, none, some "a.exe"]
      = [some "a.exe", some "b.exe", none, some "a.exe"] :=
  C2_monitor_debounce "a.exe" "b.exe" (by decide) (by decide) (by decide)

/-- C9: the module-level memo-path helper used by the watcher's own
memo-creation path has no empty-name fallback — an app name with no
alphanumeric, space, hyphen or underscore characters yields
`<data_dir>/.md`, not `<data_dir>/unknown_app.md` — and it bypasses the
executable-to-memo-name mapping: even when the store maps that executable
to some memo name, the store's path uses the mapped name while the module
helper's path ignores the mapping. -/
theorem C9_monitor_path_no_fallback (app_name data_dir : String)
    (h : ∀ c ∈ app_name.data, keepChar c = false) :
    ForegroundMonitor.get_memo_file_path app_name data_dir
        = data_dir ++ "/.md" ∧
    ForegroundMonitor.get_memo_file_path app_name data_dir
        ≠ data_dir ++ "/unknown_app.md" ∧
    ∀ (st : MemoSt) (mn : String), dget app_name st.mapping = some mn →
      MemoManager.get_memo_file_path st app_name
          = (st.data_dir ++ "/" ++ MemoManager.sanitize_filename mn ++ ".md", st) ∧
      ForegroundMonitor.get_memo_file_path app_name st.data_dir
          = st.data_dir ++ "/.md" := by
  have hsan : sanitizeChars app_name.data = [] := by
    unfold sanitizeChars
    have hf : app_name.data.filter keepChar = [] := by
      simp only [List.filter_eq_nil_iff]
      intro c hc
      simp [h c hc]
    rw [hf]
    rfl
  have hpath : ∀ d : String,
      ForegroundMonitor.get_memo_file_path app_name d = d ++ "/.md" := by
    intro d
    unfold ForegroundMonitor.get_memo_file_path
    rw [hsan]
    apply String.ext
    simp [String.data_append]
  refine ⟨hpath data_dir, ?_, ?_⟩
  · rw [hpath data_dir]
    intro hcontra
    have := congrArg String.data hcontra
    simp [String.data_append] at this
  · intro st mn hmn
    exact ⟨memo_path_of_mapped st app_name mn hmn, hpath st.data_dir⟩

/-- Witness for C9 at the all-punctuation app name `!!!`. -/
theorem C9_monitor_path_no_fallback_witness :
    (∀ c ∈ ("!!!" : String).data, keepChar c = false) ∧
    ForegroundMonitor.get_memo_file_path "!!!" "data" = "data/.md" ∧
    ForegroundMonitor.get_memo_file_path "!!!" "data" ≠ "data/unknown_app.md" := by
  have h : ∀ c ∈ ("!!!" : String).data, keepChar c = false := by decide
  have hc := C9_monitor_path_no_fallback "!!!" "data" h
  exact ⟨h, hc.1, hc.2.1⟩

/-! Association-list and merge-loop facts for the settings document. -/

theorem dget_dset_ne {α : Type} {k k' : String} (h : k' ≠ k) (v : α) :
    ∀ l : List (String × α), dget k (dset k' v l) = dget k l := by
  intro l
  induction l with
  | nil => simp [dset, dget, h]
  | cons a t ih =>
    unfold dset
    by_cases ha : a.1 = k'
    · rw [if_pos ha]
      unfold dget
      rw [if_neg h, if_neg (ha ▸ h)]
    · rw [if_neg ha]
      unfold dget
      by_cases hak : a.1 = k
      · rw [if_pos hak, if_pos hak]
      · rw [if_neg hak, if_neg hak]
        exact ih

theorem merge_preserves_absent (k : String)
    (loaded : List (String × JVal)) :
    ∀ merged dflts : List (String × JVal), dget k merged = none →
      dget k (loaded.foldl SettingsManager.mergeStep (merged, dflts)).1
        = none := by
  induction loaded with
  | nil => intro merged dflts h; exact h
  | cons kv rest ih =>
    intro merged dflts h
    rw [List.foldl_cons]
    unfold SettingsManager.mergeStep
    cases hg : dget kv.1 merged with
    | none => exact ih merged dflts h
    | some mv =>
      have hne : kv.1 ≠ k := by
        intro he
        rw [he, h] at hg
        cases hg
      rcases kv with ⟨k1, v1⟩
      cases v1 <;> cases mv <;>
        (apply ih
         rw [dget_dset_ne hne]
         exact h)

/-- C3 counterexample: the merge loop guards every loaded key with
`if key in merged_settings`, so the unknown top-level key `extra` present
on disk is dropped from the result, refuting the claim that unknown keys
appear verbatim. -/
theorem C3_counterexample :
    dget "extra" ([("extra", JVal.str "x")] : List (String × JVal))
        = some (JVal.str "x") ∧
    dget "extra"
      (SettingsManager.load_settings_merge
        (SettingsManager.default_settings "HOME")
        [("extra", JVal.str "x")]).1 = none :=
  ⟨rfl, rfl⟩

/-- C3 (amended): Settings Load merges the on-disk document over the
defaults such that (a) unknown top-level keys present on disk but absent
from the default schema are DROPPED from the result (the loop only merges
keys already in the default schema), and (b) a nested window object on disk
is merged key-by-key into the default window object, so loading
`window.left = 50` yields `left = 50` with every other window field (and
`data_save_dir`) at its default. -/
theorem C3_settings_merge (home : String) :
    (∀ (loaded : List (String × JVal)) (k : String),
        dget k (SettingsManager.default_settings home) = none →
        dget k (SettingsManager.load_settings_merge
            (SettingsManager.default_settings home) loaded).1 = none) ∧
    dget "window" (SettingsManager.load_settings_merge
        (SettingsManager.default_settings home)
        [("window", JVal.obj [("left", JVal.num 50)])]).1
      = some (JVal.obj [("width", JVal.num 400), ("height", JVal.num 300),
          ("left", JVal.num 50), ("top", JVal.null),
          ("always_on_top", JVal.bool false)]) ∧
    dget "data_save_dir" (SettingsManager.load_settings_merge
        (SettingsManager.default_settings home)
        [("window", JVal.obj [("left", JVal.num 50)])]).1
      = some (JVal.str (home ++ "/Documents/StickyMemos")) := by
  exact ⟨fun loaded k h => merge_preserves_absent k loaded _ _ h, rfl, rfl⟩

/-- Witness for C3: the unknown key `extra` is absent from the defaults and
dropped from the merged result. -/
theorem C3_settings_merge_witness :
    dget "extra" (SettingsManager.default_settings "HOME") = none ∧
    dget "extra"
      (SettingsManager.load_settings_merge
        (SettingsManager.default_settings "HOME")
        [("extra", JVal.str "x")]).1 = none :=
  ⟨rfl, (C3_settings_merge "HOME").1 [("extra", JVal.str "x")] "extra" rfl⟩

/-- C10: `load_settings` copies the defaults only shallowly, so merging an
on-disk window object mutates the stored defaults in place: after
constructing the store over `window.left = 50`, the store's
`default_settings` window section itself has `left = 50` (it differs from
the pristine defaults), and a later re-load merges over these mutated
defaults (here reproducing the same document). -/
theorem C10_shallow_copy_mutates_defaults (home : String) :
    dget "window"
      (SettingsManager.init home
        (some [("window", JVal.obj [("left", JVal.num 50)])])).default_settings
      = some (JVal.obj [("width", JVal.num 400), ("height", JVal.num 300),
          ("left", JVal.num 50), ("top", JVal.null),
          ("always_on_top", JVal.bool false)]) ∧
    dget "window" (SettingsManager.default_settings home)
      = some (JVal.obj [("width", JVal.num 400), ("height", JVal.num 300),
          ("left", JVal.null), ("top", JVal.null),
          ("always_on_top", JVal.bool false)]) ∧
    dget "window"
        (SettingsManager.init home
          (some [("window", JVal.obj [("left", JVal.num 50)])])).default_settings
      ≠ dget "window" (SettingsManager.default_settings home) ∧
    SettingsManager.load_settings_merge
        (SettingsManager.init home
          (some [("window", JVal.obj [("left", JVal.num 50)])])).default_settings
        [("window", JVal.obj [("left", JVal.num 50)])]
      = ((SettingsManager.init home
            (some [("window", JVal.obj [("left", JVal.num 50)])])).settings,
         (SettingsManager.init home
            (some [("window", JVal.obj [("left", JVal.num 50)])])).default_settings) := by
  refine ⟨rfl, rfl, ?_, rfl⟩
  intro h
  have h1 : dget "window"
      (SettingsManager.init home
        (some [("window", JVal.obj [("left", JVal.num 50)])])).default_settings
      = some (JVal.obj [("width", JVal.num 400), ("height", JVal.num 300),
          ("left", JVal.num 50), ("top", JVal.null),
          ("always_on_top", JVal.bool false)]) := rfl
  have h2 : dget "window" (SettingsManager.default_settings home)
      = some (JVal.obj [("width", JVal.num 400), ("height", JVal.num 300),
          ("left", JVal.null), ("top", JVal.null),
          ("always_on_top", JVal.bool false)]) := rfl
  rw [h1, h2] at h
  simp at h

/-- C1: the claim says a `close` event persists the window geometry and a
following `resize` is skipped, one save in total.  In the code,
`on_window_event("close")` calls `set_shutdown()` FIRST and
`save_window_settings` then observes the shutdown flag and returns without
writing, so a close followed by a resize performs ZERO window-settings
saves — contradicting the handler's own "window closing, saving settings"
log line and the spec. -/
theorem C1_close_then_resize_saves_nothing (win1 win2 : WinGeom) (s : AppSt) :
    (AppMain.on_window_event .resized win2
        (AppMain.on_window_event .close win1 s)).saves = s.saves ∧
    (AppMain.on_window_event .close win1 s).shutdown = true ∧
    AppMain.on_window_event .close win1 s = { s with shutdown := true } :=
  ⟨rfl, rfl, rfl⟩

/-! Memo-editor save facts. -/

theorem save_memo_noop {s : EditorSt} (fs : FileSys)
    (h : s.current_file_path = none ∨ s.is_dirty = false) :
    MemoEditor.save_memo s fs = (true, s, fs) := by
  unfold MemoEditor.save_memo
  rcases h with h | h
  · rw [h]
  · cases hp : s.current_file_path with
    | none => rfl
    | some p => simp [h]

theorem save_memo_success {s : EditorSt} {fs : FileSys} {p : String}
    (hp : s.current_file_path = some p) (hd : s.is_dirty = true)
    (hw : p ∉ fs.failWrites) :
    MemoEditor.save_memo s fs
      = (true, { s with is_dirty := false, status_visible := true },
         { fs with files := dset p s.buffer fs.files }) := by
  unfold MemoEditor.save_memo
  rw [hp, hd]
  simp [hw]

theorem save_memo_failure {s : EditorSt} {fs : FileSys} {p : String}
    (hp : s.current_file_path = some p) (hd : s.is_dirty = true)
    (hw : p ∈ fs.failWrites) :
    MemoEditor.save_memo s fs
      = (false, { s with status_visible := true, status_error := true }, fs) := by
  unfold MemoEditor.save_memo
  rw [hp, hd]
  simp [hw]

/-- C7: Save returns success without writing when no file is bound or there
are no unsaved changes; otherwise it overwrites the bound file with the
buffer — on success the dirty flag is cleared and the on-disk content
equals the buffer at the moment of Save (so load → edit → Save walks
`has_unsaved_changes` through false → true → false), while on a write
failure it returns failure and leaves the dirty flag set. -/
theorem C7_save_memo_contract :
    (∀ (s : EditorSt) (fs : FileSys),
        s.current_file_path = none ∨ s.is_dirty = false →
        MemoEditor.save_memo s fs = (true, s, fs)) ∧
    (∀ (s : EditorSt) (fs : FileSys) (p : String),
        s.current_file_path = some p → s.is_dirty = true →
        p ∉ fs.failWrites →
        (MemoEditor.save_memo s fs).1 = true ∧
        (MemoEditor.save_memo s fs).2.1.is_dirty = false ∧
        dget p (MemoEditor.save_memo s fs).2.2.files = some s.buffer) ∧
    (∀ (s : EditorSt) (fs : FileSys) (p : String),
        s.current_file_path = some p → s.is_dirty = true →
        p ∈ fs.failWrites →
        (MemoEditor.save_memo s fs).1 = false ∧
        (MemoEditor.save_memo s fs).2.1.is_dirty = true ∧
        (MemoEditor.save_memo s fs).2.2 = fs) ∧
    (∀ (fs : FileSys) (p template err txt : String),
        p ∉ fs.failWrites →
        MemoEditor.has_unsaved_changes MemoEditor.initEditor = false ∧
        MemoEditor.has_unsaved_changes
          (MemoEditor.load_memo MemoEditor.initEditor fs p template err) = false ∧
        MemoEditor.has_unsaved_changes
          (MemoEditor.on_text_change
            (MemoEditor.load_memo MemoEditor.initEditor fs p template err) txt)
          = true ∧
        (MemoEditor.save_memo
          (MemoEditor.on_text_change
            (MemoEditor.load_memo MemoEditor.initEditor fs p template err) txt)
          fs).1 = true ∧
        MemoEditor.has_unsaved_changes
          (MemoEditor.save_memo
            (MemoEditor.on_text_change
              (MemoEditor.load_memo MemoEditor.initEditor fs p template err) txt)
            fs).2.1 = false ∧
        dget p (MemoEditor.save_memo
            (MemoEditor.on_text_change
              (MemoEditor.load_memo MemoEditor.initEditor fs p template err) txt)
            fs).2.2.files = some txt) := by
  refine ⟨fun s fs h => save_memo_noop fs h, ?_, ?_, ?_⟩
  · intro s fs p hp hd hw
    rw [save_memo_success hp hd hw]
    exact ⟨rfl, rfl, dget_dset_self p s.buffer fs.files⟩
  · intro s fs p hp hd hw
    rw [save_memo_failure hp hd hw]
    exact ⟨rfl, hd, rfl⟩
  · intro fs p template err txt hw
    have hload : (MemoEditor.load_memo MemoEditor.initEditor fs p template
        err).is_dirty = false := by
      unfold MemoEditor.load_memo
      cases dget p fs.files with
      | none => rfl
      | some c =>
        by_cases hr : p ∈ fs.failReads
        · simp [hr]
        · simp [hr]
    have hp : (MemoEditor.on_text_change
        (MemoEditor.load_memo MemoEditor.initEditor fs p template err)
        txt).current_file_path = some p := by
      unfold MemoEditor.on_text_change MemoEditor.load_memo
      cases dget p fs.files with
      | none => rfl
      | some c =>
        by_cases hr : p ∈ fs.failReads
        · simp [hr]
        · simp [hr]
    have hd : (MemoEditor.on_text_change
        (MemoEditor.load_memo MemoEditor.initEditor fs p template err)
        txt).is_dirty = true := rfl
    have hbuf : (MemoEditor.on_text_change
        (MemoEditor.load_memo MemoEditor.initEditor fs p template err)
        txt).buffer = txt := rfl
    refine ⟨rfl, hload, rfl, ?_, ?_, ?_⟩
    · rw [save_memo_success hp hd hw]
    · rw [save_memo_success hp hd hw]
      rfl
    · rw [save_memo_success hp hd hw]
      simpa [hbuf] using dget_dset_self p _ fs.files

/-- Witness for C7: a concrete no-op save, a concrete successful save of an
edited buffer, and a concrete failing save that keeps the dirty flag. -/
theorem C7_save_memo_contract_witness :
    MemoEditor.save_memo MemoEditor.initEditor ⟨[], [], []⟩
      = (true, MemoEditor.initEditor, ⟨[], [], []⟩) ∧
    ((MemoEditor.save_memo
        (MemoEditor.on_text_change
          (MemoEditor.load_memo MemoEditor.initEditor ⟨[], [], []⟩
            "m.md" "tpl" "err") "hello")
        ⟨[], [], []⟩).1 = true ∧
      dget "m.md" (MemoEditor.save_memo
        (MemoEditor.on_text_change
          (MemoEditor.load_memo MemoEditor.initEditor ⟨[], [], []⟩
            "m.md" "tpl" "err") "hello")
        ⟨[], [], []⟩).2.2.files = some "hello") ∧
    ((MemoEditor.save_memo (⟨some "m.md", true, "x", false, false⟩ : EditorSt)
        ⟨[], ["m.md"], []⟩).1 = false ∧
      (MemoEditor.save_memo (⟨some "m.md", true, "x", false, false⟩ : EditorSt)
        ⟨[], ["m.md"], []⟩).2.1.is_dirty = true) := by
  refine ⟨?_, ?_, ?_⟩
  · exact C7_save_memo_contract.1 MemoEditor.initEditor ⟨[], [], []⟩ (Or.inl rfl)
  · have h := C7_save_memo_contract.2.2.2 ⟨[], [], []⟩ "m.md" "tpl" "err" "hello"
      (by decide)
    exact ⟨h.2.2.2.1, h.2.2.2.2.2⟩
  · have h := C7_save_memo_contract.2.2.1
      (⟨some "m.md", true, "x", false, false⟩ : EditorSt)
      ⟨[], ["m.md"], []⟩ "m.md" rfl rfl (by decide)
    exact ⟨h.1, h.2.1⟩

/-- C8: the translate operation returns the key string itself, unchanged,
whenever the dotted-path walk fails (a segment missing from a dict, or a
segment resolving through a value of the wrong shape), and a defined key
whose string needs a format placeholder that was not supplied raises a
`KeyError` inside `format` that `t` catches — the lookup still returns a
string (again the key), not an uncaught exception. -/
theorem C8_translate_fallback :
    (∀ (strings : YVal) (key : String) (kwargs : List (String × String)),
        I18n.walk strings (I18n.splitDots key) = none →
        I18n.t strings key kwargs = .ret key) ∧
    (∀ (strings : YVal) (key s : String) (kwargs : List (String × String)),
        I18n.walk strings (I18n.splitDots key) = some (.str s) →
        kwargs ≠ [] →
        I18n.pyFormat s kwargs = .keyError →
        I18n.t strings key kwargs = .ret key) := by
  constructor
  · intro strings key kwargs h
    unfold I18n.t
    rw [h]
  · intro strings key s kwargs hw hk hf
    unfold I18n.t
    rw [hw]
    have hne : kwargs.isEmpty = false := by
      cases kwargs with
      | nil => exact absurd rfl hk
      | cons a l => rfl
    simp [hne, hf]

/-- Witness for C8: in the table `a ↦ (b ↦ "Hello {name}")`, the undefined
key `a.c` comes back unchanged, and the defined key `a.b` looked up without
the `name` argument hits the caught `KeyError` and also comes back as the
key. -/
theorem C8_translate_fallback_witness :
    I18n.walk (.map [("a", .map [("b", .str "Hello {name}")])])
        (I18n.splitDots "a.c") = none ∧
    I18n.t (.map [("a", .map [("b", .str "Hello {name}")])]) "a.c" []
        = .ret "a.c" ∧
    I18n.walk (.map [("a", .map [("b", .str "Hello {name}")])])
        (I18n.splitDots "a.b") = some (.str "Hello {name}") ∧
    I18n.pyFormat "Hello {name}" [("other", "x")] = .keyError ∧
    I18n.t (.map [("a", .map [("b", .str "Hello {name}")])]) "a.b"
        [("other", "x")] = .ret "a.b" := by
  refine ⟨rfl, ?_, rfl, rfl, ?_⟩
  · exact C8_translate_fallback.1 _ "a.c" [] rfl
  · exact C8_translate_fallback.2 _ "a.b" "Hello {name}" [("other", "x")]
      rfl (by simp) rfl

end StickyMemo
